import Mathlib

/-!
Verification of the fade-transition `SceneManager` from `src/core/scene_manager.py`.

Scenes carry no behaviour of their own in the base class, so they are modelled
by identifiers (`Nat`); the calls the manager makes on scenes (`enter`, `exit`,
`update`, `handle_events`) are recorded as an emitted list of `SMCall` events.
Keyword-argument dictionaries are opaque and modelled by a `Nat` token; the
event batch passed to `handle_events` is modelled by a `List Nat`.  All float
arithmetic of the source (`alpha`, `_dur`, `dt`) is modelled over `ℚ`; every
concrete value appearing in the claims (0.5, 1.0, 255.0, 127.5, 0.35, 1e-6) is
exactly representable in binary floating point, and the source performs only
additions, subtractions, one multiplication and one division on them, so the
rational model agrees with the float execution on the scenarios considered.
-/

/-- The fade phases of `SceneManager._phase` (the Python strings
`"idle" | "fading_out" | "fading_in"`). -/
inductive Phase where
  | idle
  | fadingOut
  | fadingIn
deriving DecidableEq, Repr

/-- A call the manager performs on a scene: `scene.exit()`,
`scene.enter(**kwargs)`, `scene.update(dt)` or `scene.handle_events(events)`. -/
inductive SMCall where
  | exitCall (scene : Nat)
  | enterCall (scene : Nat) (kwargs : Nat)
  | updateCall (scene : Nat) (dt : ℚ)
  | eventsCall (scene : Nat) (events : List Nat)
deriving DecidableEq, Repr

/-- The state of `SceneManager`: `current`, `_registry`, `_phase`, `_alpha`,
`_dur`, `_next_scene`, `_next_kwargs`. -/
structure SceneManager where
  current : Option Nat
  registry : Finset Nat
  phase : Phase
  alpha : ℚ
  dur : ℚ
  nextScene : Option Nat
  nextKwargs : Nat
deriving DecidableEq

/-- `SceneManager.__init__`: no current scene, empty registry, idle phase,
`_alpha = 0.0`, `_dur = 0.35`, no pending scene, empty pending kwargs. -/
def SceneManager.init : SceneManager :=
  { current := none
    registry := ∅
    phase := .idle
    alpha := 0
    dur := 7/20
    nextScene := none
    nextKwargs := 0 }

/-- `add(scene)`: insert into the registry; `enter` is not called. -/
def SceneManager.add (s : SceneManager) (scene : Nat) : SceneManager :=
  { s with registry := insert scene s.registry }

/-- `remove(scene)`: if `scene is self.current`, call `scene.exit()` and clear
`current`, `phase`, `alpha`; in every case `self._registry.discard(scene)`. -/
def SceneManager.remove (s : SceneManager) (scene : Nat) :
    SceneManager × List SMCall :=
  if s.current = some scene then
    ({ s with current := none
              phase := .idle
              alpha := 0
              registry := s.registry.erase scene },
     [SMCall.exitCall scene])
  else
    ({ s with registry := s.registry.erase scene }, [])

/-- `has(scene)`: registry membership. -/
def SceneManager.has (s : SceneManager) (scene : Nat) : Bool :=
  scene ∈ s.registry

/-- `set_fade(duration)`: `self._dur = max(0.0, float(duration))`. -/
def SceneManager.set_fade (s : SceneManager) (duration : ℚ) : SceneManager :=
  { s with dur := max 0 duration }

/-- `is_transitioning`: `self._phase != "idle"`. -/
def SceneManager.is_transitioning (s : SceneManager) : Bool :=
  s.phase ≠ .idle

/-- `switch(scene, with_fade=True, **kwargs)`: auto-add to the registry, then
either switch immediately (when `not with_fade`, or `current is None`, or
`_dur <= 0.0`) or start a fade-out with `scene` stored as pending. -/
def SceneManager.switch (s : SceneManager) (scene : Nat) (with_fade : Bool)
    (kwargs : Nat) : SceneManager × List SMCall :=
  let s1 := if scene ∈ s.registry then s else s.add scene
  if with_fade = false ∨ s1.current = none ∨ s1.dur ≤ 0 then
    let exits := match s1.current with
      | some c => [SMCall.exitCall c]
      | none => []
    ({ s1 with current := some scene, phase := .idle, alpha := 0 },
     exits ++ [SMCall.enterCall scene kwargs])
  else
    ({ s1 with nextScene := some scene
               nextKwargs := kwargs
               phase := .fadingOut
               alpha := 0 }, [])

/-- `handle_events(events)`: dropped while transitioning, otherwise forwarded
to the current scene (if any). No state changes. -/
def SceneManager.handle_events (s : SceneManager) (events : List Nat) :
    SceneManager × List SMCall :=
  if s.phase ≠ .idle then (s, [])
  else
    match s.current with
    | some c => (s, [SMCall.eventsCall c events])
    | none => (s, [])

/-- The epsilon `1e-6` guarding the division in `update`. -/
def epsFade : ℚ := 1/1000000

/-- `update(dt)` translated line by line: idle forwards to the current scene;
otherwise `step = 255.0 * (dt / max(self._dur, 1e-6))` drives the fade, with
the scene swap (`exit` old, install `_next_scene`, `enter` it) at
`alpha >= 255`, and finally the current scene is updated only while the phase
is `fading_in` after the step. -/
def SceneManager.update (s : SceneManager) (dt : ℚ) :
    SceneManager × List SMCall :=
  if s.phase = .idle then
    match s.current with
    | some c => (s, [SMCall.updateCall c dt])
    | none => (s, [])
  else
    let step := 255 * (dt / max s.dur epsFade)
    let r1 : SceneManager × List SMCall :=
      if s.phase = .fadingOut then
        let a := s.alpha + step
        if 255 ≤ a then
          let exits := match s.current with
            | some c => [SMCall.exitCall c]
            | none => []
          let enters := match s.nextScene with
            | some n => [SMCall.enterCall n s.nextKwargs]
            | none => []
          ({ s with alpha := 255, current := s.nextScene, phase := .fadingIn },
           exits ++ enters)
        else
          ({ s with alpha := a }, [])
      else
        let a := s.alpha - step
        if a ≤ 0 then
          ({ s with alpha := 0, phase := .idle }, [])
        else
          ({ s with alpha := a }, [])
    match r1.1.current, r1.1.phase with
    | some c, .fadingIn => (r1.1, r1.2 ++ [SMCall.updateCall c dt])
    | _, _ => r1

/-- A rendering command issued by `draw(screen)`: blit of the current scene,
or the full-surface overlay fill `(r, g, b, a)` followed by its blit. -/
inductive RenderCmd where
  | drawScene (scene : Nat)
  | fillOverlay (r g b a : ℤ)
deriving DecidableEq, Repr

/-- Python `int()` on a float: truncation toward zero. -/
def pyInt (x : ℚ) : ℤ :=
  if 0 ≤ x then ⌊x⌋ else ⌈x⌉

/-- Python `round()` on a float: round half to even. -/
def pyRound (x : ℚ) : ℤ :=
  let f := ⌊x⌋
  let r := x - f
  if r < 1/2 then f
  else if 1/2 < r then f + 1
  else if f % 2 = 0 then f else f + 1

/-- `draw(screen)`: draw the current scene if any; then, while transitioning,
fill a full-surface overlay with `(0, 0, 0, a)` where
`a = max(0, min(255, int(self._alpha)))` and blit it on top. -/
def SceneManager.draw (s : SceneManager) : List RenderCmd :=
  (match s.current with
    | some c => [RenderCmd.drawScene c]
    | none => []) ++
  (if s.phase ≠ .idle then
    [RenderCmd.fillOverlay 0 0 0 (max 0 (min 255 (pyInt s.alpha)))]
   else [])

/-- One external call into the manager, for reachability statements. -/
inductive Op where
  | add (scene : Nat)
  | remove (scene : Nat)
  | set_fade (d : ℚ)
  | switch (scene : Nat) (with_fade : Bool) (kwargs : Nat)
  | handle_events (events : List Nat)
  | update (dt : ℚ)

/-- Apply one external call, discarding the emitted scene calls. -/
def SceneManager.apply (s : SceneManager) : Op → SceneManager
  | .add scene => s.add scene
  | .remove scene => (s.remove scene).1
  | .set_fade d => s.set_fade d
  | .switch scene wf k => (s.switch scene wf k).1
  | .handle_events evs => (s.handle_events evs).1
  | .update dt => (s.update dt).1

/-- Run a sequence of external calls from a fresh manager. -/
def SceneManager.run (ops : List Op) : SceneManager :=
  ops.foldl SceneManager.apply SceneManager.init

/-- `dt ≥ 0` for `update` calls (the spec fixes `dt` as nonnegative frame
time); trivially true for the other operations. -/
def Op.nonnegDt : Op → Prop
  | .update dt => 0 ≤ dt
  | _ => True

instance (op : Op) : Decidable op.nonnegDt := by
  cases op with
  | update dt => exact inferInstanceAs (Decidable (0 ≤ dt))
  | add s => exact inferInstanceAs (Decidable True)
  | remove s => exact inferInstanceAs (Decidable True)
  | set_fade d => exact inferInstanceAs (Decidable True)
  | switch a b c => exact inferInstanceAs (Decidable True)
  | handle_events e => exact inferInstanceAs (Decidable True)

/-! ### Evaluation lemmas for `update` in each phase -/

lemma SceneManager.update_idle (s : SceneManager) (dt : ℚ) (h : s.phase = .idle) :
    s.update dt = (s, match s.current with
      | some c => [SMCall.updateCall c dt]
      | none => []) := by
  cases hc : s.current <;> simp [SceneManager.update, h, hc]

lemma SceneManager.update_fadingOut_flip (s : SceneManager) (dt : ℚ)
    (h : s.phase = .fadingOut)
    (hf : 255 ≤ s.alpha + 255 * (dt / max s.dur epsFade)) :
    s.update dt =
      ({ s with alpha := 255, current := s.nextScene, phase := .fadingIn },
       (match s.current with
         | some c => [SMCall.exitCall c]
         | none => []) ++
       (match s.nextScene with
         | some n => [SMCall.enterCall n s.nextKwargs, SMCall.updateCall n dt]
         | none => [])) := by
  cases hc : s.current <;> cases hn : s.nextScene <;>
    simp [SceneManager.update, h, hc, hn, hf]

lemma SceneManager.update_fadingOut_noflip (s : SceneManager) (dt : ℚ)
    (h : s.phase = .fadingOut)
    (hf : s.alpha + 255 * (dt / max s.dur epsFade) < 255) :
    s.update dt = ({ s with alpha := s.alpha + 255 * (dt / max s.dur epsFade) }, []) := by
  have hf2 : ¬ (255 ≤ s.alpha + 255 * (dt / max s.dur epsFade)) := not_le.mpr hf
  simp [SceneManager.update, h, hf2]

lemma SceneManager.update_fadingIn_done (s : SceneManager) (dt : ℚ)
    (h : s.phase = .fadingIn)
    (hf : s.alpha - 255 * (dt / max s.dur epsFade) ≤ 0) :
    s.update dt = ({ s with alpha := 0, phase := .idle }, []) := by
  simp [SceneManager.update, h, hf]

lemma SceneManager.update_fadingIn_cont (s : SceneManager) (dt : ℚ)
    (h : s.phase = .fadingIn)
    (hf : 0 < s.alpha - 255 * (dt / max s.dur epsFade)) :
    s.update dt = ({ s with alpha := s.alpha - 255 * (dt / max s.dur epsFade) },
      match s.current with
      | some c => [SMCall.updateCall c dt]
      | none => []) := by
  have hf2 : ¬ (s.alpha - 255 * (dt / max s.dur epsFade) ≤ 0) := not_le.mpr hf
  cases hc : s.current <;> simp [SceneManager.update, h, hc, hf2]

/-! ### Alpha bounds invariant -/

lemma epsFade_pos : (0 : ℚ) < epsFade := by norm_num [epsFade]

lemma fadeStep_nonneg (dur : ℚ) {dt : ℚ} (hdt : 0 ≤ dt) :
    0 ≤ 255 * (dt / max dur epsFade) := by
  have hpos : (0 : ℚ) < max dur epsFade := lt_of_lt_of_le epsFade_pos (le_max_right _ _)
  positivity

/-- `0 ≤ alpha ≤ 255`, the range stated for the overlay opacity. -/
def SceneManager.AlphaInv (s : SceneManager) : Prop :=
  0 ≤ s.alpha ∧ s.alpha ≤ 255

lemma SceneManager.alphaInv_update {s : SceneManager} (hs : s.AlphaInv) {dt : ℚ}
    (hdt : 0 ≤ dt) : (s.update dt).1.AlphaInv := by
  have hstep := fadeStep_nonneg s.dur hdt
  cases hp : s.phase with
  | idle => rw [s.update_idle dt hp]; exact hs
  | fadingOut =>
    rcases le_or_lt 255 (s.alpha + 255 * (dt / max s.dur epsFade)) with hf | hf
    · rw [s.update_fadingOut_flip dt hp hf]
      exact ⟨by norm_num, by norm_num⟩
    · rw [s.update_fadingOut_noflip dt hp hf]
      exact ⟨by have := hs.1; dsimp only; linarith, by dsimp only; linarith⟩
  | fadingIn =>
    rcases le_or_lt (s.alpha - 255 * (dt / max s.dur epsFade)) 0 with hf | hf
    · rw [s.update_fadingIn_done dt hp hf]
      exact ⟨by norm_num, by norm_num⟩
    · rw [s.update_fadingIn_cont dt hp hf]
      exact ⟨by have := hs.1; dsimp only; linarith, by have := hs.2; dsimp only; linarith⟩

lemma SceneManager.alphaInv_apply {s : SceneManager} (hs : s.AlphaInv) {op : Op}
    (hop : op.nonnegDt) : (s.apply op).AlphaInv := by
  cases op with
  | add scene => exact hs
  | remove scene =>
    simp only [SceneManager.apply, SceneManager.remove]
    split
    · exact ⟨le_refl 0, by norm_num⟩
    · exact hs
  | set_fade d => exact hs
  | switch scene wf k =>
    simp only [SceneManager.apply, SceneManager.switch, SceneManager.add]
    split_ifs <;> exact ⟨le_refl 0, by norm_num⟩
  | handle_events evs =>
    simp only [SceneManager.apply, SceneManager.handle_events]
    split
    · exact hs
    · cases hc : s.current <;> simp <;> exact hs
  | update dt => exact SceneManager.alphaInv_update hs hop

lemma SceneManager.alphaInv_foldl {s : SceneManager} (hs : s.AlphaInv) (ops : List Op)
    (h : ∀ op ∈ ops, op.nonnegDt) : (ops.foldl SceneManager.apply s).AlphaInv := by
  induction ops generalizing s with
  | nil => exact hs
  | cons op rest ih =>
    simp only [List.foldl_cons]
    exact ih (SceneManager.alphaInv_apply hs (h op (List.mem_cons_self op rest)))
      (fun o ho => h o (List.mem_cons_of_mem op ho))

lemma SceneManager.alphaInv_run (ops : List Op) (h : ∀ op ∈ ops, op.nonnegDt) :
    (SceneManager.run ops).AlphaInv :=
  SceneManager.alphaInv_foldl ⟨le_refl 0, by norm_num [SceneManager.init]⟩ ops h

lemma SceneManager.update_mono_out {s : SceneManager} (hs : s.AlphaInv) {dt : ℚ}
    (hdt : 0 ≤ dt) (hp : s.phase = .fadingOut) : s.alpha ≤ (s.update dt).1.alpha := by
  have hstep := fadeStep_nonneg s.dur hdt
  rcases le_or_lt 255 (s.alpha + 255 * (dt / max s.dur epsFade)) with hf | hf
  · rw [s.update_fadingOut_flip dt hp hf]; exact hs.2
  · rw [s.update_fadingOut_noflip dt hp hf]; dsimp only; linarith

lemma SceneManager.update_mono_in {s : SceneManager} (hs : s.AlphaInv) {dt : ℚ}
    (hdt : 0 ≤ dt) (hp : s.phase = .fadingIn) : (s.update dt).1.alpha ≤ s.alpha := by
  have hstep := fadeStep_nonneg s.dur hdt
  rcases le_or_lt (s.alpha - 255 * (dt / max s.dur epsFade)) 0 with hf | hf
  · rw [s.update_fadingIn_done dt hp hf]; exact hs.1
  · rw [s.update_fadingIn_cont dt hp hf]; dsimp only; linarith

/-! ### Evaluation lemmas for `switch` -/

lemma SceneManager.switch_fast (s : SceneManager) (scene k : Nat) (wf : Bool)
    (h : wf = false ∨ s.current = none ∨ s.dur ≤ 0) :
    s.switch scene wf k =
      ({ (if scene ∈ s.registry then s else s.add scene) with
         current := some scene, phase := .idle, alpha := 0 },
       (match s.current with
         | some c => [SMCall.exitCall c]
         | none => []) ++ [SMCall.enterCall scene k]) := by
  have h1 : (if scene ∈ s.registry then s else s.add scene).current = s.current := by
    split <;> rfl
  have h2 : (if scene ∈ s.registry then s else s.add scene).dur = s.dur := by
    split <;> rfl
  simp only [SceneManager.switch]
  rw [if_pos (by rw [h1, h2]; exact h), h1]

lemma SceneManager.switch_fade (s : SceneManager) (scene k : Nat)
    (hcur : s.current ≠ none) (hdur : 0 < s.dur) :
    s.switch scene true k =
      ({ (if scene ∈ s.registry then s else s.add scene) with
         nextScene := some scene, nextKwargs := k, phase := .fadingOut, alpha := 0 },
       []) := by
  have h1 : (if scene ∈ s.registry then s else s.add scene).current = s.current := by
    split <;> rfl
  have h2 : (if scene ∈ s.registry then s else s.add scene).dur = s.dur := by
    split <;> rfl
  simp only [SceneManager.switch]
  rw [if_neg]
  rw [h1, h2]
  simp [hcur, not_le.mpr hdur]

/-! ### Claim theorems -/

/-- Claim C2, counterexample: in the reachable state obtained by
`switch(A)`, `set_fade(1.0)`, `switch(B, with_fade=True)`, `remove(A)`, the
phase is `idle` yet the pending target field still stores `B` (the code never
clears `_next_scene`), refuting the invariant that `phase == idle` implies no
pending target scene is stored. -/
theorem phase_idle_pending_counterexample :
    (SceneManager.run
        [Op.switch 0 true 0, Op.set_fade 1, Op.switch 1 true 0, Op.remove 0]).phase
      = Phase.idle ∧
    (SceneManager.run
        [Op.switch 0 true 0, Op.set_fade 1, Op.switch 1 true 0, Op.remove 0]).nextScene
      = some 1 ∧
    (SceneManager.run
        [Op.switch 0 true 0, Op.set_fade 1, Op.switch 1 true 0, Op.remove 0]).current
      = none := by
  have ha : SceneManager.init.switch 0 true 0
      = (⟨some 0, {0}, .idle, 0, 7/20, none, 0⟩, [SMCall.enterCall 0 0]) := by
    norm_num [SceneManager.switch, SceneManager.init, SceneManager.add] <;> rfl
  have hb : (⟨some 0, {0}, .idle, 0, 7/20, none, 0⟩ : SceneManager).set_fade 1
      = ⟨some 0, {0}, .idle, 0, 1, none, 0⟩ := by
    norm_num [SceneManager.set_fade, max_def]
  have hc : (⟨some 0, {0}, .idle, 0, 1, none, 0⟩ : SceneManager).switch 1 true 0
      = (⟨some 0, {1, 0}, .fadingOut, 0, 1, some 1, 0⟩, []) := by
    norm_num [SceneManager.switch, SceneManager.add] <;> first | rfl | simp
  have hd : (⟨some 0, {1, 0}, .fadingOut, 0, 1, some 1, 0⟩ : SceneManager).remove 0
      = (⟨none, ({1, 0} : Finset Nat).erase 0, .idle, 0, 1, some 1, 0⟩,
         [SMCall.exitCall 0]) := by
    norm_num [SceneManager.remove]
  simp only [SceneManager.run, List.foldl_cons, List.foldl_nil, SceneManager.apply,
    ha, hb, hc, hd]
  exact ⟨trivial, trivial, trivial⟩

/-- Claim C2, amended: the `_next_scene` field is never cleared, so
`phase == idle` does not imply the field is empty; what holds is that while
`phase == idle` the stored pending target is inert — `update` leaves the whole
state (including `current`) unchanged and never calls any scene's `enter`. -/
theorem phase_idle_pending_inert (s : SceneManager) (dt : ℚ)
    (h : s.phase = .idle) :
    (s.update dt).1 = s ∧ ∀ c k, SMCall.enterCall c k ∉ (s.update dt).2 := by
  rw [s.update_idle dt h]
  refine ⟨rfl, fun c k => ?_⟩
  cases hc : s.current <;> simp

/-- Witness for `phase_idle_pending_inert` at the initial state with `dt = 1`. -/
theorem phase_idle_pending_inert_witness :
    (SceneManager.init.update 1).1 = SceneManager.init ∧
    SMCall.enterCall 3 7 ∉ (SceneManager.init.update 1).2 := by
  have h := phase_idle_pending_inert SceneManager.init 1 rfl
  exact ⟨h.1, h.2 3 7⟩

/-- Claim C6: `handle_events` never changes the state; while `phase != idle`
no scene receives the events; with `phase == idle` and a current scene the
full batch is forwarded to it exactly once. -/
theorem handle_events_contract (s : SceneManager) (events : List Nat) :
    (s.handle_events events).1 = s ∧
    (s.phase ≠ .idle → (s.handle_events events).2 = []) ∧
    (s.phase = .idle → ∀ c, s.current = some c →
      (s.handle_events events).2 = [SMCall.eventsCall c events]) := by
  refine ⟨?_, fun hp => ?_, fun hp c hc => ?_⟩
  · by_cases hp : s.phase = .idle
    · cases hc : s.current <;> simp [SceneManager.handle_events, hp, hc]
    · simp [SceneManager.handle_events, hp]
  · simp [SceneManager.handle_events, hp]
  · simp [SceneManager.handle_events, hp, hc]

/-- Witness for `handle_events_contract`: an idle state with a current scene
forwards the batch once; the same call leaves the state unchanged. -/
theorem handle_events_contract_witness :
    ((⟨some 4, ∅, .idle, 0, 7/20, none, 0⟩ : SceneManager).handle_events [9, 8]).1
      = (⟨some 4, ∅, .idle, 0, 7/20, none, 0⟩ : SceneManager) ∧
    ((⟨some 4, ∅, .idle, 0, 7/20, none, 0⟩ : SceneManager).handle_events [9, 8]).2
      = [SMCall.eventsCall 4 [9, 8]] := by
  have h := handle_events_contract (⟨some 4, ∅, .idle, 0, 7/20, none, 0⟩ : SceneManager) [9, 8]
  exact ⟨h.1, h.2.2 rfl 4 rfl⟩

/-- Claim C7: in every state reachable by operations whose `update` steps use
`dt ≥ 0`, `alpha` lies in `[0, 255]`; from such a state a further
`update(dt)` with `dt ≥ 0` cannot decrease `alpha` while the phase is
`fading_out` and cannot increase it while the phase is `fading_in`. -/
theorem alpha_bounds_and_fade_monotonicity (ops : List Op)
    (h : ∀ op ∈ ops, op.nonnegDt) (dt : ℚ) (hdt : 0 ≤ dt) :
    (0 ≤ (SceneManager.run ops).alpha ∧ (SceneManager.run ops).alpha ≤ 255) ∧
    ((SceneManager.run ops).phase = Phase.fadingOut →
      (SceneManager.run ops).alpha ≤ ((SceneManager.run ops).update dt).1.alpha) ∧
    ((SceneManager.run ops).phase = Phase.fadingIn →
      ((SceneManager.run ops).update dt).1.alpha ≤ (SceneManager.run ops).alpha) := by
  have hinv := SceneManager.alphaInv_run ops h
  exact ⟨hinv, fun hp => SceneManager.update_mono_out hinv hdt hp,
    fun hp => SceneManager.update_mono_in hinv hdt hp⟩

/-- Witness for `alpha_bounds_and_fade_monotonicity`: after configuring a 1s
fade, switching twice and one full-step update the manager is mid fade-in with
`alpha = 255`; the bounds hold and a further `update(1)` cannot increase it. -/
theorem alpha_bounds_and_fade_monotonicity_witness :
    (0 ≤ (SceneManager.run
        [Op.set_fade 1, Op.switch 0 true 0, Op.switch 1 true 0, Op.update 1]).alpha ∧
      (SceneManager.run
        [Op.set_fade 1, Op.switch 0 true 0, Op.switch 1 true 0, Op.update 1]).alpha ≤ 255) ∧
    ((SceneManager.run
        [Op.set_fade 1, Op.switch 0 true 0, Op.switch 1 true 0, Op.update 1]).update 1).1.alpha ≤
      (SceneManager.run
        [Op.set_fade 1, Op.switch 0 true 0, Op.switch 1 true 0, Op.update 1]).alpha := by
  have hops : ∀ op ∈ ([Op.set_fade 1, Op.switch 0 true 0, Op.switch 1 true 0,
      Op.update 1] : List Op), op.nonnegDt := by
    intro op hop
    simp only [List.mem_cons, List.not_mem_nil, or_false] at hop
    rcases hop with rfl | rfl | rfl | rfl <;> norm_num [Op.nonnegDt]
  have h := alpha_bounds_and_fade_monotonicity
    [Op.set_fade 1, Op.switch 0 true 0, Op.switch 1 true 0, Op.update 1] hops 1
    (by norm_num)
  have ha : SceneManager.init.set_fade 1 = ⟨none, ∅, .idle, 0, 1, none, 0⟩ := by
    norm_num [SceneManager.set_fade, SceneManager.init, max_def]
  have hb : (⟨none, ∅, .idle, 0, 1, none, 0⟩ : SceneManager).switch 0 true 0
      = (⟨some 0, {0}, .idle, 0, 1, none, 0⟩, [SMCall.enterCall 0 0]) := by
    norm_num [SceneManager.switch, SceneManager.add] <;> first | rfl | simp
  have hc : (⟨some 0, {0}, .idle, 0, 1, none, 0⟩ : SceneManager).switch 1 true 0
      = (⟨some 0, {1, 0}, .fadingOut, 0, 1, some 1, 0⟩, []) := by
    norm_num [SceneManager.switch, SceneManager.add] <;> first | rfl | simp
  have hd : (⟨some 0, {1, 0}, .fadingOut, 0, 1, some 1, 0⟩ : SceneManager).update 1
      = (⟨some 1, {1, 0}, .fadingIn, 255, 1, some 1, 0⟩,
         [SMCall.exitCall 0, SMCall.enterCall 1 0, SMCall.updateCall 1 1]) := by
    norm_num [SceneManager.update, epsFade, max_def] <;> first | rfl | simp
  have hrun : SceneManager.run
      [Op.set_fade 1, Op.switch 0 true 0, Op.switch 1 true 0, Op.update 1]
      = ⟨some 1, {1, 0}, .fadingIn, 255, 1, some 1, 0⟩ := by
    simp only [SceneManager.run, List.foldl_cons, List.foldl_nil, SceneManager.apply,
      ha, hb, hc, hd]
  exact ⟨h.1, h.2.2 (by rw [hrun])⟩

/-- Claim C8: `remove` of the current scene calls its `exit` exactly once and
forces `current = none, phase = idle, alpha = 0`; the scene is always erased
from the registry; removing a scene that is neither registered nor current is
a silent no-op (total function, state unchanged, no scene calls). -/
theorem remove_contract (s : SceneManager) (scene : Nat) :
    (s.current = some scene →
      (s.remove scene).2 = [SMCall.exitCall scene] ∧
      (s.remove scene).1.current = none ∧
      (s.remove scene).1.phase = Phase.idle ∧
      (s.remove scene).1.alpha = 0) ∧
    (s.remove scene).1.registry = s.registry.erase scene ∧
    (s.current ≠ some scene → scene ∉ s.registry →
      (s.remove scene).1 = s ∧ (s.remove scene).2 = []) := by
  refine ⟨fun hc => ?_, ?_, fun hc hm => ?_⟩
  · simp [SceneManager.remove, hc]
  · by_cases hc : s.current = some scene <;> simp [SceneManager.remove, hc]
  · simp only [SceneManager.remove, if_neg hc]
    refine ⟨?_, trivial⟩
    rw [Finset.erase_eq_of_not_mem hm]

/-- Witness for `remove_contract`: removing a never-added, non-current scene
from the fresh manager changes nothing and emits no scene call. -/
theorem remove_contract_witness :
    (SceneManager.init.remove 5).1 = SceneManager.init ∧
    (SceneManager.init.remove 5).2 = [] := by
  have h := remove_contract SceneManager.init 5
  exact h.2.2 (by simp [SceneManager.init]) (by simp [SceneManager.init])

/-- Claim C3: whenever `with_fade` is false, or no scene is current yet, or
the configured duration is `≤ 0`, `switch` completes synchronously: the old
scene (if any) exits, the new scene becomes current with `enter(**kwargs)`
emitted exactly once, and phase/alpha are reset to `idle`/`0`; moreover
`set_fade` clamps non-positive durations to `0`, which triggers this path. -/
theorem switch_fast_path_immediate (s : SceneManager) (scene kwargs : Nat)
    (wf : Bool) (h : wf = false ∨ s.current = none ∨ s.dur ≤ 0) :
    (s.switch scene wf kwargs).1.current = some scene ∧
    (s.switch scene wf kwargs).1.phase = Phase.idle ∧
    (s.switch scene wf kwargs).1.alpha = 0 ∧
    (s.switch scene wf kwargs).2 =
      (match s.current with
        | some c => [SMCall.exitCall c]
        | none => []) ++ [SMCall.enterCall scene kwargs] ∧
    (s.switch scene wf kwargs).2.count (SMCall.enterCall scene kwargs) = 1 ∧
    (∀ d : ℚ, d ≤ 0 → (s.set_fade d).dur = 0) := by
  rw [SceneManager.switch_fast s scene kwargs wf h]
  refine ⟨rfl, rfl, rfl, rfl, ?_, fun d hd => ?_⟩
  · cases hc : s.current <;>
      simp [hc, List.count_cons, List.count_append, List.count_nil]
  · simp [SceneManager.set_fade, max_eq_left hd]

/-- Witness for `switch_fast_path_immediate`: first activation on the fresh
manager (no current scene) is synchronous. -/
theorem switch_fast_path_immediate_witness :
    (SceneManager.init.switch 3 true 7).1.current = some 3 ∧
    (SceneManager.init.switch 3 true 7).1.phase = Phase.idle ∧
    (SceneManager.init.switch 3 true 7).2.count (SMCall.enterCall 3 7) = 1 := by
  have h := switch_fast_path_immediate SceneManager.init 3 7 true
    (Or.inr (Or.inl rfl))
  exact ⟨h.1, h.2.1, h.2.2.2.2.1⟩

/-- Claim C4: a second `switch(C, with_fade=True)` while the manager is still
fading out (with a current scene and positive duration) overwrites the pending
target; at the out-to-in flip the scene activated is `C` — `C` becomes
current, `C.enter` is emitted with `C`'s kwargs, and no `enter` of the
previously pending `B` is ever emitted on that tick. -/
theorem switch_last_wins (s : SceneManager) (A B C kC : Nat) (dt : ℚ)
    (hp : s.phase = Phase.fadingOut) (hc : s.current = some A)
    (hn : s.nextScene = some B) (hd : 0 < s.dur) :
    (s.switch C true kC).1.nextScene = some C ∧
    (s.switch C true kC).1.phase = Phase.fadingOut ∧
    (s.switch C true kC).1.current = some A ∧
    (((s.switch C true kC).1.update dt).1.phase = Phase.fadingIn →
      ((s.switch C true kC).1.update dt).1.current = some C ∧
      SMCall.enterCall C kC ∈ ((s.switch C true kC).1.update dt).2 ∧
      ∀ k, B ≠ C → SMCall.enterCall B k ∉ ((s.switch C true kC).1.update dt).2) := by
  have hcur : s.current ≠ none := by rw [hc]; simp
  rw [SceneManager.switch_fade s C kC hcur hd]
  have hcur2 : ((if C ∈ s.registry then s else s.add C) : SceneManager).current
      = s.current := by split <;> rfl
  have hdur2 : ((if C ∈ s.registry then s else s.add C) : SceneManager).dur
      = s.dur := by split <;> rfl
  refine ⟨rfl, rfl, by rw [hcur2, hc], fun hIn => ?_⟩
  set s1 := (if C ∈ s.registry then s else s.add C) with hs1
  set s2 : SceneManager :=
    { s1 with nextScene := some C, nextKwargs := kC, phase := .fadingOut, alpha := 0 }
    with hs2
  have hp2 : s2.phase = Phase.fadingOut := rfl
  rcases le_or_lt 255 (s2.alpha + 255 * (dt / max s2.dur epsFade)) with hf | hf
  · rw [s2.update_fadingOut_flip dt hp2 hf]
    have hc1 : s1.current = some A := by rw [hcur2, hc]
    have hc2 : s2.current = some A := hc1
    refine ⟨rfl, ?_, ?_⟩
    · simp [hc1, hc2]
    · intro k hBC
      simp [hc1, hc2, hBC]
  · rw [s2.update_fadingOut_noflip dt hp2 hf] at hIn
    exact absurd hIn (by simp)

/-- Witness for `switch_last_wins`: from a mid-fade-out state pending on
scene 1, switching to scene 2 and flipping with `update(1)` activates 2. -/
theorem switch_last_wins_witness :
    (((⟨some 0, {0, 1}, .fadingOut, 0, 1, some 1, 0⟩ : SceneManager).switch
        2 true 9).1.update 1).1.current = some 2 ∧
    SMCall.enterCall 2 9 ∈
      (((⟨some 0, {0, 1}, .fadingOut, 0, 1, some 1, 0⟩ : SceneManager).switch
        2 true 9).1.update 1).2 ∧
    SMCall.enterCall 1 9 ∉
      (((⟨some 0, {0, 1}, .fadingOut, 0, 1, some 1, 0⟩ : SceneManager).switch
        2 true 9).1.update 1).2 := by
  have hsw : (⟨some 0, {0, 1}, .fadingOut, 0, 1, some 1, 0⟩ : SceneManager).switch 2 true 9
      = (⟨some 0, {2, 0, 1}, .fadingOut, 0, 1, some 2, 9⟩, []) := by
    norm_num [SceneManager.switch, SceneManager.add] <;> first | rfl | simp
  have hup : (⟨some 0, {2, 0, 1}, .fadingOut, 0, 1, some 2, 9⟩ : SceneManager).update 1
      = (⟨some 2, {2, 0, 1}, .fadingIn, 255, 1, some 2, 9⟩,
         [SMCall.exitCall 0, SMCall.enterCall 2 9, SMCall.updateCall 2 1]) := by
    norm_num [SceneManager.update, epsFade, max_def] <;> first | rfl | simp
  have h := switch_last_wins (⟨some 0, {0, 1}, .fadingOut, 0, 1, some 1, 0⟩ : SceneManager)
    0 1 2 9 1 rfl rfl rfl (by norm_num)
  have hIn : (((⟨some 0, {0, 1}, .fadingOut, 0, 1, some 1, 0⟩ : SceneManager).switch
      2 true 9).1.update 1).1.phase = Phase.fadingIn := by
    rw [hsw]
    rw [hup]
  obtain ⟨h1, h2, h3⟩ := h.2.2.2 hIn
  exact ⟨h1, h2, h3 9 (by norm_num)⟩

/-- Claim C5: while the phase is `fading_out` the (outgoing) current scene is
frozen — an `update` tick that stays in `fading_out` emits no scene call at
all, and any `update` call emitted on a `fading_out` tick is addressed to the
post-flip current scene with the phase already `fading_in`; conversely every
tick that ends in phase `fading_in` (the flip tick included) forwards
`update(dt)` to the current (newly entered) scene. -/
theorem update_freeze_asymmetry (s : SceneManager) (dt : ℚ) :
    (s.phase = Phase.fadingOut → (s.update dt).1.phase = Phase.fadingOut →
      (s.update dt).2 = []) ∧
    (s.phase = Phase.fadingOut → ∀ c d, SMCall.updateCall c d ∈ (s.update dt).2 →
      (s.update dt).1.phase = Phase.fadingIn ∧
      (s.update dt).1.current = some c ∧ d = dt) ∧
    ((s.update dt).1.phase = Phase.fadingIn → ∀ c,
      (s.update dt).1.current = some c → SMCall.updateCall c dt ∈ (s.update dt).2) := by
  cases hp : s.phase with
  | idle =>
    rw [s.update_idle dt hp]
    refine ⟨fun h1 _ => ?_, fun h1 => ?_, fun h1 c hc => ?_⟩
    · exact Phase.noConfusion h1
    · exact Phase.noConfusion h1
    · simp [hp] at h1
  | fadingOut =>
    rcases le_or_lt 255 (s.alpha + 255 * (dt / max s.dur epsFade)) with hf | hf
    · rw [s.update_fadingOut_flip dt hp hf]
      refine ⟨fun _ h2 => ?_, fun _ c d hmem => ?_, fun _ c hc => ?_⟩
      · simp at h2
      · cases hcur : s.current <;> cases hn : s.nextScene <;>
          simp [hcur, hn] at hmem ⊢
        · exact ⟨hmem.1.symm, hmem.2⟩
        · exact ⟨hmem.1.symm, hmem.2⟩
      · simp only [] at hc
        cases hcur : s.current <;> simp [hcur, hc]
    · rw [s.update_fadingOut_noflip dt hp hf]
      refine ⟨fun _ _ => rfl, fun _ c d hmem => ?_, fun h1 c hc => ?_⟩
      · simp at hmem
      · simp [hp] at h1
  | fadingIn =>
    rcases le_or_lt (s.alpha - 255 * (dt / max s.dur epsFade)) 0 with hf | hf
    · rw [s.update_fadingIn_done dt hp hf]
      refine ⟨fun h1 _ => ?_, fun h1 => ?_, fun h1 c hc => ?_⟩
      · exact Phase.noConfusion h1
      · exact Phase.noConfusion h1
      · simp at h1
    · rw [s.update_fadingIn_cont dt hp hf]
      refine ⟨fun h1 _ => ?_, fun h1 => ?_, fun h1 c hc => ?_⟩
      · exact Phase.noConfusion h1
      · exact Phase.noConfusion h1
      · simp only [] at hc
        simp [hc]

/-- Witness for `update_freeze_asymmetry`: on a flip tick the newly entered
scene 1 receives `update(1)` in the same tick. -/
theorem update_freeze_asymmetry_witness :
    SMCall.updateCall 1 1 ∈
      ((⟨some 0, ∅, .fadingOut, 0, 1, some 1, 2⟩ : SceneManager).update 1).2 := by
  have hup : (⟨some 0, ∅, .fadingOut, 0, 1, some 1, 2⟩ : SceneManager).update 1
      = (⟨some 1, ∅, .fadingIn, 255, 1, some 1, 2⟩,
         [SMCall.exitCall 0, SMCall.enterCall 1 2, SMCall.updateCall 1 1]) := by
    norm_num [SceneManager.update, epsFade, max_def] <;> first | rfl | simp
  exact (update_freeze_asymmetry (⟨some 0, ∅, .fadingOut, 0, 1, some 1, 2⟩ : SceneManager)
    1).2.2 (by rw [hup]) 1 (by rw [hup])

/-- Claim C10: removing the pending target `T` (distinct from the current
scene) mid fade-out only discards `T` from the registry — the phase, alpha and
stored pending target are untouched — and a subsequent flipping `update` still
installs `T` as current and emits `T.enter`, leaving a current scene that is
no longer a registry member. -/
theorem remove_pending_no_cancel (s : SceneManager) (A T : Nat) (dt : ℚ)
    (hp : s.phase = Phase.fadingOut) (hc : s.current = some A)
    (hn : s.nextScene = some T) (hAT : A ≠ T)
    (hflip : 255 ≤ s.alpha + 255 * (dt / max s.dur epsFade)) :
    (s.remove T).2 = [] ∧
    (s.remove T).1.phase = Phase.fadingOut ∧
    (s.remove T).1.alpha = s.alpha ∧
    (s.remove T).1.nextScene = some T ∧
    (s.remove T).1.current = some A ∧
    T ∉ (s.remove T).1.registry ∧
    ((s.remove T).1.update dt).1.current = some T ∧
    SMCall.enterCall T s.nextKwargs ∈ ((s.remove T).1.update dt).2 ∧
    T ∉ ((s.remove T).1.update dt).1.registry := by
  have hcT : ¬ (s.current = some T) := by rw [hc]; simp [hAT]
  have hr : s.remove T = ({ s with registry := s.registry.erase T }, []) := by
    simp [SceneManager.remove, hcT]
  rw [hr]
  set r : SceneManager := { s with registry := s.registry.erase T } with hrdef
  have hpr : r.phase = Phase.fadingOut := hp
  have hfr : 255 ≤ r.alpha + 255 * (dt / max r.dur epsFade) := hflip
  rw [r.update_fadingOut_flip dt hpr hfr]
  have hcr : r.current = some A := hc
  have hnr : r.nextScene = some T := hn
  refine ⟨rfl, hp, rfl, hn, hc, Finset.not_mem_erase T s.registry, ?_, ?_,
    Finset.not_mem_erase T s.registry⟩
  · exact hnr
  · simp [hc, hn]

/-- Witness for `remove_pending_no_cancel`: removing pending scene 1 while
scene 0 fades out; `update(1)` still activates 1, now outside the registry. -/
theorem remove_pending_no_cancel_witness :
    (((⟨some 0, {0, 1}, .fadingOut, 0, 1, some 1, 4⟩ : SceneManager).remove 1).1.update
        1).1.current = some 1 ∧
    SMCall.enterCall 1 4 ∈
      (((⟨some 0, {0, 1}, .fadingOut, 0, 1, some 1, 4⟩ : SceneManager).remove 1).1.update
        1).2 ∧
    1 ∉ (((⟨some 0, {0, 1}, .fadingOut, 0, 1, some 1, 4⟩ : SceneManager).remove 1).1.update
        1).1.registry := by
  have h := remove_pending_no_cancel
    (⟨some 0, {0, 1}, .fadingOut, 0, 1, some 1, 4⟩ : SceneManager) 0 1 1
    rfl rfl rfl (by norm_num) (by norm_num [epsFade, max_def])
  exact ⟨h.2.2.2.2.2.2.1, h.2.2.2.2.2.2.2.1, h.2.2.2.2.2.2.2.2⟩

/-- Claim C1: with `set_fade(1.0)` and `switch(B, with_fade=True)` from
current scene `A` (here `A = 0`, `B = 1`, entry params `5`), `update(0.5)`
leaves `phase == fading_out`, `alpha == 127.5`, `A` still current and no scene
call; the next `update(0.5)` clamps alpha to 255 and performs the swap —
`A.exit()`, `B` current, `B.enter(5)` — entering `fading_in`; two further
`update(0.5)` calls bring alpha back to 0 and the phase to idle, so the whole
transition consumes 2.0 seconds of `dt` for a configured duration of 1.0. -/
theorem fade_timing_full_cycle :
    ((((SceneManager.init.switch 0 true 0).1.set_fade 1).switch 1 true 5).1.update
        (1/2)).1.phase = Phase.fadingOut ∧
    ((((SceneManager.init.switch 0 true 0).1.set_fade 1).switch 1 true 5).1.update
        (1/2)).1.alpha = 255/2 ∧
    ((((SceneManager.init.switch 0 true 0).1.set_fade 1).switch 1 true 5).1.update
        (1/2)).1.current = some 0 ∧
    ((((SceneManager.init.switch 0 true 0).1.set_fade 1).switch 1 true 5).1.update
        (1/2)).2 = [] ∧
    (((((SceneManager.init.switch 0 true 0).1.set_fade 1).switch 1 true 5).1.update
        (1/2)).1.update (1/2)).1.alpha = 255 ∧
    (((((SceneManager.init.switch 0 true 0).1.set_fade 1).switch 1 true 5).1.update
        (1/2)).1.update (1/2)).1.current = some 1 ∧
    (((((SceneManager.init.switch 0 true 0).1.set_fade 1).switch 1 true 5).1.update
        (1/2)).1.update (1/2)).1.phase = Phase.fadingIn ∧
    (((((SceneManager.init.switch 0 true 0).1.set_fade 1).switch 1 true 5).1.update
        (1/2)).1.update (1/2)).2
      = [SMCall.exitCall 0, SMCall.enterCall 1 5, SMCall.updateCall 1 (1/2)] ∧
    ((((((SceneManager.init.switch 0 true 0).1.set_fade 1).switch 1 true 5).1.update
        (1/2)).1.update (1/2)).1.update (1/2)).1.phase = Phase.fadingIn ∧
    ((((((SceneManager.init.switch 0 true 0).1.set_fade 1).switch 1 true 5).1.update
        (1/2)).1.update (1/2)).1.update (1/2)).1.alpha = 255/2 ∧
    (((((((SceneManager.init.switch 0 true 0).1.set_fade 1).switch 1 true 5).1.update
        (1/2)).1.update (1/2)).1.update (1/2)).1.update (1/2)).1.phase = Phase.idle ∧
    (((((((SceneManager.init.switch 0 true 0).1.set_fade 1).switch 1 true 5).1.update
        (1/2)).1.update (1/2)).1.update (1/2)).1.update (1/2)).1.alpha = 0 := by
  have ha : SceneManager.init.switch 0 true 0
      = (⟨some 0, {0}, .idle, 0, 7/20, none, 0⟩, [SMCall.enterCall 0 0]) := by
    norm_num [SceneManager.switch, SceneManager.init, SceneManager.add] <;>
      first | rfl | simp
  have hb : (⟨some 0, {0}, .idle, 0, 7/20, none, 0⟩ : SceneManager).set_fade 1
      = ⟨some 0, {0}, .idle, 0, 1, none, 0⟩ := by
    norm_num [SceneManager.set_fade, max_def]
  have hcn : (⟨some 0, {0}, .idle, 0, 1, none, 0⟩ : SceneManager).switch 1 true 5
      = (⟨some 0, {1, 0}, .fadingOut, 0, 1, some 1, 5⟩, []) := by
    norm_num [SceneManager.switch, SceneManager.add] <;> first | rfl | simp
  have h1 : (⟨some 0, {1, 0}, .fadingOut, 0, 1, some 1, 5⟩ : SceneManager).update (1/2)
      = (⟨some 0, {1, 0}, .fadingOut, 255/2, 1, some 1, 5⟩, []) := by
    norm_num [SceneManager.update, epsFade, max_def] <;> first | rfl | simp
  have h2 : (⟨some 0, {1, 0}, .fadingOut, 255/2, 1, some 1, 5⟩ : SceneManager).update (1/2)
      = (⟨some 1, {1, 0}, .fadingIn, 255, 1, some 1, 5⟩,
         [SMCall.exitCall 0, SMCall.enterCall 1 5, SMCall.updateCall 1 (1/2)]) := by
    norm_num [SceneManager.update, epsFade, max_def] <;> first | rfl | simp
  have h3 : (⟨some 1, {1, 0}, .fadingIn, 255, 1, some 1, 5⟩ : SceneManager).update (1/2)
      = (⟨some 1, {1, 0}, .fadingIn, 255/2, 1, some 1, 5⟩, [SMCall.updateCall 1 (1/2)]) := by
    norm_num [SceneManager.update, epsFade, max_def] <;> first | rfl | simp
  have h4 : (⟨some 1, {1, 0}, .fadingIn, 255/2, 1, some 1, 5⟩ : SceneManager).update (1/2)
      = (⟨some 1, {1, 0}, .idle, 0, 1, some 1, 5⟩, []) := by
    norm_num [SceneManager.update, epsFade, max_def] <;> first | rfl | simp
  simp only [ha, hb, hcn, h1, h2, h3, h4]
  norm_num

/-- Claim C9, counterexample: in the reachable state with `alpha = 127.5`
(`set_fade(1.0)`, two switches, `update(0.5)`), `draw` composites the overlay
at opacity `int(127.5) = 127` (truncation), while the claimed formula
`clamp(round(alpha), 0, 255)` yields `128` — so the overlay opacity is not
`clamp(round(alpha), 0, 255)`. -/
theorem draw_truncates_not_rounds :
    SceneManager.draw (SceneManager.run
        [Op.set_fade 1, Op.switch 0 true 0, Op.switch 1 true 0, Op.update (1/2)])
      = [RenderCmd.drawScene 0, RenderCmd.fillOverlay 0 0 0 127] ∧
    max 0 (min 255 (pyRound (SceneManager.run
        [Op.set_fade 1, Op.switch 0 true 0, Op.switch 1 true 0,
         Op.update (1/2)]).alpha)) = 128 ∧
    SceneManager.draw (SceneManager.run
        [Op.set_fade 1, Op.switch 0 true 0, Op.switch 1 true 0, Op.update (1/2)])
      ≠ [RenderCmd.drawScene 0, RenderCmd.fillOverlay 0 0 0
          (max 0 (min 255 (pyRound (SceneManager.run
            [Op.set_fade 1, Op.switch 0 true 0, Op.switch 1 true 0,
             Op.update (1/2)]).alpha)))] := by
  have ha : SceneManager.init.set_fade 1 = ⟨none, ∅, .idle, 0, 1, none, 0⟩ := by
    norm_num [SceneManager.set_fade, SceneManager.init, max_def]
  have hb : (⟨none, ∅, .idle, 0, 1, none, 0⟩ : SceneManager).switch 0 true 0
      = (⟨some 0, {0}, .idle, 0, 1, none, 0⟩, [SMCall.enterCall 0 0]) := by
    norm_num [SceneManager.switch, SceneManager.add] <;> first | rfl | simp
  have hc : (⟨some 0, {0}, .idle, 0, 1, none, 0⟩ : SceneManager).switch 1 true 0
      = (⟨some 0, {1, 0}, .fadingOut, 0, 1, some 1, 0⟩, []) := by
    norm_num [SceneManager.switch, SceneManager.add] <;> first | rfl | simp
  have hd : (⟨some 0, {1, 0}, .fadingOut, 0, 1, some 1, 0⟩ : SceneManager).update (1/2)
      = (⟨some 0, {1, 0}, .fadingOut, 255/2, 1, some 1, 0⟩, []) := by
    norm_num [SceneManager.update, epsFade, max_def] <;> first | rfl | simp
  have hrun : SceneManager.run
      [Op.set_fade 1, Op.switch 0 true 0, Op.switch 1 true 0, Op.update (1/2)]
      = ⟨some 0, {1, 0}, .fadingOut, 255/2, 1, some 1, 0⟩ := by
    simp only [SceneManager.run, List.foldl_cons, List.foldl_nil, SceneManager.apply,
      ha, hb, hc, hd]
  have hfl : ⌊(255/2 : ℚ)⌋ = 127 := by
    rw [Int.floor_eq_iff] <;> norm_num
  have hint : pyInt (255/2) = 127 := by
    rw [pyInt, if_pos (by norm_num)]
    exact hfl
  have hround : pyRound (255/2) = 128 := by
    rw [pyRound]
    norm_num [hfl]
  rw [hrun]
  refine ⟨?_, ?_, ?_⟩
  · show SceneManager.draw _ = _
    norm_num [SceneManager.draw, hint, max_def, min_def] <;> first | rfl | simp | decide
  · show max 0 (min 255 (pyRound (255/2))) = 128
    norm_num [hround, max_def, min_def]
  · show SceneManager.draw _ ≠ _
    norm_num [SceneManager.draw, hint, hround, max_def, min_def] <;>
      first | rfl | simp | decide

/-- Claim C9, amended: `draw` draws the current scene first when one exists;
the dark full-surface overlay `(0, 0, 0, a)` is composited if and only if
`phase != idle`, as a single command on top, with integer opacity
`a = clamp(int(alpha), 0, 255)` — `int` being Python truncation toward zero,
not rounding. -/
theorem draw_contract (s : SceneManager) :
    (∀ c, s.current = some c → s.draw.head? = some (RenderCmd.drawScene c)) ∧
    (s.phase = Phase.idle → s.draw = (match s.current with
      | some c => [RenderCmd.drawScene c]
      | none => [])) ∧
    (s.phase ≠ Phase.idle → s.draw = (match s.current with
      | some c => [RenderCmd.drawScene c]
      | none => []) ++
        [RenderCmd.fillOverlay 0 0 0 (max 0 (min 255 (pyInt s.alpha)))]) := by
  refine ⟨fun c hc => ?_, fun hp => ?_, fun hp => ?_⟩
  · by_cases hp : s.phase = Phase.idle <;> simp [SceneManager.draw, hc, hp]
  · cases hc : s.current <;> simp [SceneManager.draw, hc, hp]
  · cases hc : s.current <;> simp [SceneManager.draw, hc, hp]

/-- Witness for `draw_contract`: a fading-out state with `alpha = 0` draws the
scene then a fully transparent black overlay. -/
theorem draw_contract_witness :
    (⟨some 2, ∅, .fadingOut, 0, 1, none, 0⟩ : SceneManager).draw
      = [RenderCmd.drawScene 2, RenderCmd.fillOverlay 0 0 0 0] := by
  have h := (draw_contract (⟨some 2, ∅, .fadingOut, 0, 1, none, 0⟩ : SceneManager)).2.2
    (by simp)
  rw [h]
  norm_num [pyInt, max_def, min_def]
